import Mathlib

/-!
# Verification of the invest-bot holdings store and portfolio calculator

Shallow embedding of `src/Bot.py` (a Telegram investment-portfolio bot).
Python floats are modelled as rationals (`ℚ`); the arithmetic of the
claims is exact at the inputs considered.  External collaborators
(the PostgreSQL table, the `yfinance` quote fetch, the currency-rates
HTTP call, Python `float()` parsing) are modelled as explicit data or
function parameters, as described at each definition.
-/

namespace InvestBot

/-- One row of the `holdings` table (`CREATE TABLE holdings (user_id BIGINT,
ticker TEXT, quantity REAL, buy_price REAL, PRIMARY KEY (user_id, ticker))`,
`Bot.py` lines 63-71). -/
structure Holding where
  user_id : Int
  ticker : String
  quantity : ℚ
  buy_price : ℚ
deriving DecidableEq

/-- The `holdings` table, as the list of its rows. -/
abbrev Store := List Holding

/-- Whether a row has the given primary key `(user_id, ticker)`. -/
def keyMatches (u : Int) (t : String) (h : Holding) : Bool :=
  h.user_id == u && h.ticker == t

/-- The `DO UPDATE SET quantity = $3, buy_price = $4` part of the upsert:
rows with the conflicting key get the new quantity and buy_price, other
rows are untouched. -/
def updateRow (u : Int) (t : String) (q p : ℚ) (h : Holding) : Holding :=
  if keyMatches u t h then { h with quantity := q, buy_price := p } else h

/-- The SQL statement of `cmd_add` (`Bot.py` lines 92-97):
`INSERT INTO holdings ... ON CONFLICT (user_id, ticker) DO UPDATE SET
quantity = $3, buy_price = $4`.  If a row with the key exists it is
updated in place, otherwise a new row is appended. -/
def upsert (s : Store) (u : Int) (t : String) (q p : ℚ) : Store :=
  if s.any (keyMatches u t) then s.map (updateRow u t q p)
  else s ++ [⟨u, t, q, p⟩]

/-- The query of `cmd_portfolio` (`Bot.py` lines 105-108):
`SELECT ticker, quantity, buy_price FROM holdings WHERE user_id=$1`. -/
def listUser (s : Store) (u : Int) : List Holding :=
  s.filter (fun h => h.user_id == u)

/-- Python `str.upper()`: uppercase every character. -/
def pyUpper (s : String) : String := ⟨s.data.map Char.toUpper⟩

/-- Splitting loop for `pySplit`: `cur` holds the current word reversed. -/
def pySplitAux : List Char → List Char → List String
  | [], cur => if cur.isEmpty then [] else [⟨cur.reverse⟩]
  | c :: rest, cur =>
    if c.isWhitespace then
      if cur.isEmpty then pySplitAux rest [] else ⟨cur.reverse⟩ :: pySplitAux rest []
    else pySplitAux rest (c :: cur)

/-- Python `str.split()` with no separator: split on whitespace runs,
dropping empty pieces (`args = message.text.split()`, `Bot.py` line 77). -/
def pySplit (s : String) : List String := pySplitAux s.data []

/-- Python `text.startswith('/')` for a single-character argument: the
first character equals it (`False` on the empty string). -/
def pyStartsWith (s : String) (c : Char) : Bool :=
  match s.data with
  | [] => false
  | d :: _ => d == c

/-- The store write `cmd_add` issues (`Bot.py` lines 91-97): the upsert is
called with the ticker uppercased (`ticker.upper()`). -/
def addHolding (s : Store) (u : Int) (t : String) (q p : ℚ) : Store :=
  upsert s u (pyUpper t) q p

/-- Per-holding figures of the portfolio loop (`Bot.py` lines 130-133). -/
structure HoldingCalc where
  cost : ℚ
  value : ℚ
  profit : ℚ
  profit_pct : ℚ
deriving DecidableEq

/-- The per-holding arithmetic of `cmd_portfolio` (`Bot.py` lines 130-133):
`cost = qty * buy_price`, `value = qty * current_price`,
`profit = value - cost`,
`profit_pct = (profit / cost * 100) if cost != 0 else 0`. -/
def calcHolding (qty buy_price current_price : ℚ) : HoldingCalc :=
  let cost := qty * buy_price
  let value := qty * current_price
  let profit := value - cost
  let profit_pct := if cost ≠ 0 then profit / cost * 100 else 0
  ⟨cost, value, profit, profit_pct⟩

/-- The quote fetch of `cmd_portfolio` (`Bot.py` lines 119-128).  The
`yfinance` call is external; it is modelled as `quote : String → Option ℚ`
where `none` stands for both a raised exception and an empty history
(`hist.empty`): in both cases the code sets `current_price = 0.0`. -/
def fetchPrice (quote : String → Option ℚ) (t : String) : ℚ :=
  (quote t).getD 0

/-- The data a row contributes to the report: its ticker and its
`HoldingCalc` figures at the fetched (or fallen-back) price. -/
def entryOf (quote : String → Option ℚ) (r : Holding) : String × HoldingCalc :=
  (r.ticker, calcHolding r.quantity r.buy_price (fetchPrice quote r.ticker))

/-- One iteration of the `for row in rows` loop of `cmd_portfolio`
(`Bot.py` lines 115-142): append the row's line, add its `cost` and
`value` to the running totals. -/
def portfolioStep (quote : String → Option ℚ)
    (acc : ℚ × ℚ × List (String × HoldingCalc)) (r : Holding) :
    ℚ × ℚ × List (String × HoldingCalc) :=
  let c := calcHolding r.quantity r.buy_price (fetchPrice quote r.ticker)
  (acc.1 + c.cost, acc.2.1 + c.value, acc.2.2 ++ [(r.ticker, c)])

/-- The accumulation loop of `cmd_portfolio` (`Bot.py` lines 112-142):
starting from `total_cost = 0.0`, `total_value = 0.0`, `lines = []`. -/
def portfolioAcc (quote : String → Option ℚ) (rows : List Holding) :
    ℚ × ℚ × List (String × HoldingCalc) :=
  rows.foldl (portfolioStep quote) (0, 0, [])

/-- The report `cmd_portfolio` assembles after the loop (`Bot.py` lines
135-148): the per-ticker lines and the totals header.  A line is modelled
by the data interpolated into it: the ticker together with its
`HoldingCalc` figures. -/
structure PortfolioReport where
  entries : List (String × HoldingCalc)
  total_cost : ℚ
  total_value : ℚ
  total_profit : ℚ
  total_profit_pct : ℚ
deriving DecidableEq

/-- The whole portfolio computation of `cmd_portfolio` for a nonempty row
list (`Bot.py` lines 112-148): run the loop, then
`total_profit = total_value - total_cost` and
`total_profit_pct = (total_profit / total_cost * 100) if total_cost != 0
else 0`. -/
def portfolioCalc (rows : List Holding) (quote : String → Option ℚ) :
    PortfolioReport :=
  let acc := portfolioAcc quote rows
  let total_cost := acc.1
  let total_value := acc.2.1
  let total_profit := total_value - total_cost
  { entries := acc.2.2
    total_cost := total_cost
    total_value := total_value
    total_profit := total_profit
    total_profit_pct := if total_cost ≠ 0 then total_profit / total_cost * 100 else 0 }

/-- An outbound `message.answer(...)` call, identified by the handler text
it sends (with the data interpolated into that text as arguments). -/
inductive Reply where
  /-- "Формат: /add TICKER КОЛИЧЕСТВО ЦЕНА ..." (`Bot.py` line 79). -/
  | usage
  /-- "Количество и цена должны быть числами" (`Bot.py` line 87). -/
  | notNumber
  /-- "Добавлено: ..." (`Bot.py` line 99). -/
  | added (t : String) (q p : ℚ)
  /-- "Портфель пуст. Добавьте бумаги через /add" (`Bot.py` line 110). -/
  | emptyPortfolio
  /-- The totals header plus per-ticker lines (`Bot.py` line 148). -/
  | report (r : PortfolioReport)
  /-- The /help text (`Bot.py` lines 153-158). -/
  | helpText
  /-- The /start greeting with the keyboard (`Bot.py` lines 175-179). -/
  | startText
  /-- "⏳ Получаю актуальные курсы..." (`Bot.py` line 194). -/
  | ratesWait
  /-- "📈 Курсы валют к рублю: ..." (`Bot.py` lines 199-207). -/
  | ratesText (usd eur gbp cny kzt jpy : ℚ)
  /-- "❌ Ошибка получения курсов: ..." (`Bot.py` line 210). -/
  | ratesError (e : String)
  /-- "Я понимаю только команды. ..." (`Bot.py` lines 217-220). -/
  | unknownText
  /-- "Неизвестная команда. Введите /help." (`Bot.py` line 223). -/
  | unknownCommand
deriving DecidableEq

/-- The handler `cmd_add` (`Bot.py` lines 75-99).  Python `float()` is
external and is modelled as the parameter `parse : String → Option ℚ`
(`none` = `ValueError`).  Returns the reply sent and the store after the
handler.  `args = message.text.split()`; on `len(args) != 4` the usage
message is sent and the handler returns; on a parse failure the
not-a-number message is sent and the handler returns; otherwise the
uppercased ticker is upserted and the confirmation is sent. -/
def cmdAdd (parse : String → Option ℚ) (u : Int) (text : String) (s : Store) :
    Reply × Store :=
  let args := pySplit text
  if args.length ≠ 4 then (Reply.usage, s)
  else
    let ticker := args.getD 1 ""
    let qty_str := args.getD 2 ""
    let price_str := args.getD 3 ""
    match parse qty_str, parse price_str with
    | some qty, some price =>
      (Reply.added (pyUpper ticker) qty price, addHolding s u ticker qty price)
    | _, _ => (Reply.notNumber, s)

/-- The handler `cmd_portfolio` (`Bot.py` lines 101-148).  Returns the
reply sent together with the list of tickers for which a quote fetch was
issued (`Bot.py` lines 120-121 run once per row).  If the user's row list
is empty the empty-portfolio message is sent, no fetch occurs, and no
report is computed. -/
def cmdPortfolio (quote : String → Option ℚ) (u : Int) (s : Store) :
    Reply × List String :=
  let rows := listUser s u
  if rows.isEmpty then (Reply.emptyPortfolio, [])
  else (Reply.report (portfolioCalc rows quote), rows.map (fun r => r.ticker))

/-- Python `rates.get(code, 0)` on the dict built by `get_currency_rates`,
modelled on an association list (`Bot.py` lines 200-205). -/
def rateGet (rates : List (String × ℚ)) (code : String) : ℚ :=
  (rates.lookup code).getD 0

/-- The handler `cmd_rates` (`Bot.py` lines 192-211).  The currency-rates
HTTP fetch `get_currency_rates` is external and is modelled as
`ratesFetch : Except String (List (String × ℚ))` (`Except.error` = any
exception in the `try` block).  The handler first answers the waiting
message, then either the rates text or the error message; it never touches
the holdings store. -/
def cmdRates (ratesFetch : Except String (List (String × ℚ))) : List Reply :=
  Reply.ratesWait ::
    match ratesFetch with
    | Except.ok rates =>
      [Reply.ratesText (rateGet rates "USD") (rateGet rates "EUR")
        (rateGet rates "GBP") (rateGet rates "CNY")
        (rateGet rates "KZT") (rateGet rates "JPY")]
    | Except.error e => [Reply.ratesError e]

/-- The catch-all handler `handle_unknown` (`Bot.py` lines 213-224).
`message.text` is `Option String` (`none` = a non-text message such as a
sticker or photo).  The Python guard `if message.text` is truthiness:
it is `False` both for `None` and for the empty string. -/
def handleUnknown (text : Option String) : List Reply :=
  match text with
  | none => []
  | some t =>
    if !t.data.isEmpty && !pyStartsWith t '/' then [Reply.unknownText]
    else if !t.data.isEmpty && pyStartsWith t '/' then [Reply.unknownCommand]
    else []

/-- The aiogram `Command("name")` filter: the message text's first
whitespace-separated token is `/name`.  (A `@botmention` suffix on the
token is not modelled; no claim involves it.) -/
def isCommand (cmd : String) (text : String) : Bool :=
  match pySplit text with
  | [] => false
  | w :: _ => w == "/" ++ cmd

/-- An inbound Telegram message, reduced to the fields the handlers read:
`message.text` (`none` for non-text messages) and `message.from_user.id`. -/
structure Msg where
  text : Option String
  user_id : Int

/-- The aiogram dispatcher: handlers are tried in registration order
(`cmd_add`, `cmd_portfolio`, `cmd_help`, `cmd_start`, `handle_buttons`,
`cmd_rates`, `handle_unknown`) and the first whose filter matches runs
(`Bot.py` lines 75-224).  `handle_buttons` (lines 182-189) forwards the
very same message object to `cmd_add`, `cmd_portfolio` or `cmd_help`.
Returns the replies sent and the store afterwards. -/
def dispatch (parse : String → Option ℚ) (quote : String → Option ℚ)
    (ratesFetch : Except String (List (String × ℚ))) (m : Msg) (s : Store) :
    List Reply × Store :=
  match m.text with
  | none => ([], s)
  | some text =>
    if isCommand "add" text then
      let r := cmdAdd parse m.user_id text s
      ([r.1], r.2)
    else if isCommand "portfolio" text then
      ([(cmdPortfolio quote m.user_id s).1], s)
    else if isCommand "help" text then ([Reply.helpText], s)
    else if isCommand "start" text then ([Reply.startText], s)
    else if text == "➕ Добавить" then
      let r := cmdAdd parse m.user_id text s
      ([r.1], r.2)
    else if text == "📊 Портфель" then
      ([(cmdPortfolio quote m.user_id s).1], s)
    else if text == "❓ Помощь" then ([Reply.helpText], s)
    else if text == "💰 Курсы валют" then (cmdRates ratesFetch, s)
    else (handleUnknown (some text), s)

/-! ## Helper lemmas about the store -/

theorem keyMatches_iff {u : Int} {t : String} {h : Holding} :
    keyMatches u t h = true ↔ h.user_id = u ∧ h.ticker = t := by
  simp [keyMatches]

theorem updateRow_self {u : Int} {t : String} {q p : ℚ} {h : Holding}
    (hk : keyMatches u t h = true) : updateRow u t q p h = ⟨u, t, q, p⟩ := by
  obtain ⟨hu, ht⟩ := keyMatches_iff.mp hk
  cases h
  cases hu
  cases ht
  simp [updateRow, hk]

theorem updateRow_other {u : Int} {t : String} {q p : ℚ} {h : Holding}
    (hk : keyMatches u t h = false) : updateRow u t q p h = h := by
  simp [updateRow, hk]

theorem keyMatches_new {u : Int} {t : String} {q p : ℚ} :
    keyMatches u t ⟨u, t, q, p⟩ = true := by
  simp [keyMatches]

theorem keyMatches_updateRow {u : Int} {t : String} {q p : ℚ} {h : Holding} :
    keyMatches u t (updateRow u t q p h) = keyMatches u t h := by
  rcases hk : keyMatches u t h with _ | _
  · rw [updateRow_other hk, hk]
  · rw [updateRow_self hk, keyMatches_new]

theorem updateRow_idem {u : Int} {t : String} {q p : ℚ} {h : Holding} :
    updateRow u t q p (updateRow u t q p h) = updateRow u t q p h := by
  rcases hk : keyMatches u t h with _ | _
  · rw [updateRow_other hk, updateRow_other hk]
  · rw [updateRow_self hk, updateRow_self keyMatches_new]

theorem filter_map_update_zero (u : Int) (t : String) (q p : ℚ) (s : Store)
    (h0 : s.countP (keyMatches u t) = 0) :
    (s.map (updateRow u t q p)).filter (keyMatches u t) = [] := by
  rw [List.filter_eq_nil_iff]
  intro y hy
  obtain ⟨x, hx, rfl⟩ := List.mem_map.mp hy
  have hkx : ¬ keyMatches u t x = true := List.countP_eq_zero.mp h0 x hx
  rw [updateRow_other (by simpa using hkx)]
  simpa using hkx

theorem filter_map_update (u : Int) (t : String) (q p : ℚ) (s : Store)
    (hs : s.countP (keyMatches u t) ≤ 1) (hAny : s.any (keyMatches u t) = true) :
    (s.map (updateRow u t q p)).filter (keyMatches u t) = [⟨u, t, q, p⟩] := by
  induction s with
  | nil => simp at hAny
  | cons h rest ih =>
    rcases hk : keyMatches u t h with _ | _
    · have hAny' : rest.any (keyMatches u t) = true := by
        simpa [hk] using hAny
      have hs' : rest.countP (keyMatches u t) ≤ 1 := by
        simp only [List.countP_cons, hk] at hs
        omega
      simpa [updateRow_other hk, List.filter_cons, hk] using ih hs' hAny'
    · have h0 : rest.countP (keyMatches u t) = 0 := by
        simp [List.countP_cons, hk] at hs
        exact List.countP_eq_zero.mpr (by simpa using hs)
      rw [List.map_cons, updateRow_self hk]
      simp [List.filter_cons, keyMatches_new,
        filter_map_update_zero u t q p rest h0]

theorem upsert_of_any_false (s : Store) (u : Int) (t : String) (q p : ℚ)
    (hA : s.any (keyMatches u t) = false) :
    upsert s u t q p = s ++ [⟨u, t, q, p⟩] := by
  unfold upsert
  rw [if_neg]
  simp [hA]

theorem upsert_of_any_true (s : Store) (u : Int) (t : String) (q p : ℚ)
    (hA : s.any (keyMatches u t) = true) :
    upsert s u t q p = s.map (updateRow u t q p) := by
  unfold upsert
  rw [if_pos hA]

theorem filter_upsert (s : Store) (u : Int) (t : String) (q p : ℚ)
    (hs : s.countP (keyMatches u t) ≤ 1) :
    (upsert s u t q p).filter (keyMatches u t) = [⟨u, t, q, p⟩] := by
  rcases hAny : s.any (keyMatches u t) with _ | _
  · rw [upsert_of_any_false s u t q p hAny]
    have hnil : s.filter (keyMatches u t) = [] := by
      rw [List.filter_eq_nil_iff]
      intro y hy
      have := List.any_eq_false.mp (by simpa using hAny) y hy
      simpa using this
    simp [List.filter_append, hnil, List.filter_cons, keyMatches_new]
  · rw [upsert_of_any_true s u t q p hAny]
    exact filter_map_update u t q p s hs hAny

theorem any_upsert (s : Store) (u : Int) (t : String) (q p : ℚ) :
    (upsert s u t q p).any (keyMatches u t) = true := by
  rcases hA : s.any (keyMatches u t) with _ | _
  · rw [upsert_of_any_false s u t q p hA]
    simp [keyMatches_new]
  · rw [upsert_of_any_true s u t q p hA]
    rw [List.any_eq_true] at hA ⊢
    obtain ⟨x, hx, hkx⟩ := hA
    exact ⟨updateRow u t q p x, List.mem_map_of_mem _ hx,
      by rw [keyMatches_updateRow]; exact hkx⟩

theorem upsert_idem (s : Store) (u : Int) (t : String) (q p : ℚ) :
    upsert (upsert s u t q p) u t q p = upsert s u t q p := by
  have hfix : ∀ y ∈ upsert s u t q p, updateRow u t q p y = y := by
    rcases hA : s.any (keyMatches u t) with _ | _
    · rw [upsert_of_any_false s u t q p hA]
      intro y hy
      rcases List.mem_append.mp hy with hyl | hyr
      · have := List.any_eq_false.mp (by simpa using hA) y hyl
        exact updateRow_other (by simpa using this)
      · have hy' : y = (⟨u, t, q, p⟩ : Holding) := by simpa using hyr
        rw [hy', updateRow_self keyMatches_new]
    · rw [upsert_of_any_true s u t q p hA]
      intro y hy
      obtain ⟨x, _, rfl⟩ := List.mem_map.mp hy
      exact updateRow_idem
  rw [upsert_of_any_true _ u t q p (any_upsert s u t q p)]
  calc (upsert s u t q p).map (updateRow u t q p)
      = (upsert s u t q p).map id := List.map_congr_left (fun y hy => hfix y hy)
    _ = upsert s u t q p := List.map_id _

/-! ## Helper lemmas about the portfolio loop -/

theorem foldl_portfolioStep (quote : String → Option ℚ) :
    ∀ (rows : List Holding) (a b : ℚ) (l : List (String × HoldingCalc)),
      rows.foldl (portfolioStep quote) (a, b, l) =
        (a + (rows.map (fun r => (entryOf quote r).2.cost)).sum,
         b + (rows.map (fun r => (entryOf quote r).2.value)).sum,
         l ++ rows.map (entryOf quote))
  | [], a, b, l => by simp
  | r :: rest, a, b, l => by
    rw [List.foldl_cons, foldl_portfolioStep quote rest]
    simp only [portfolioStep, entryOf, List.map_cons, List.sum_cons, Prod.mk.injEq]
    refine ⟨by ring, by ring, by simp⟩

theorem portfolioAcc_eq (quote : String → Option ℚ) (rows : List Holding) :
    portfolioAcc quote rows =
      ((rows.map (fun r => (entryOf quote r).2.cost)).sum,
       (rows.map (fun r => (entryOf quote r).2.value)).sum,
       rows.map (entryOf quote)) := by
  unfold portfolioAcc
  rw [foldl_portfolioStep]
  simp

theorem portfolioCalc_entries (rows : List Holding) (quote : String → Option ℚ) :
    (portfolioCalc rows quote).entries = rows.map (entryOf quote) := by
  simp [portfolioCalc, portfolioAcc_eq]

theorem portfolioCalc_total_cost (rows : List Holding) (quote : String → Option ℚ) :
    (portfolioCalc rows quote).total_cost =
      (((portfolioCalc rows quote).entries).map (fun e => e.2.cost)).sum := by
  simp [portfolioCalc, portfolioAcc_eq, List.map_map, Function.comp_def]

theorem portfolioCalc_total_value (rows : List Holding) (quote : String → Option ℚ) :
    (portfolioCalc rows quote).total_value =
      (((portfolioCalc rows quote).entries).map (fun e => e.2.value)).sum := by
  simp [portfolioCalc, portfolioAcc_eq, List.map_map, Function.comp_def]

/-! ## Helper lemmas about the handlers -/

theorem cmdAdd_wrong_arity (parse : String → Option ℚ) (u : Int) (text : String)
    (s : Store) (hlen : (pySplit text).length ≠ 4) :
    cmdAdd parse u text s = (Reply.usage, s) := by
  simp [cmdAdd, hlen]

theorem cmdAdd_parse_fail (parse : String → Option ℚ) (u : Int) (text : String)
    (s : Store) (w t qs ps : String) (hsp : pySplit text = [w, t, qs, ps])
    (hor : parse qs = none ∨ parse ps = none) :
    cmdAdd parse u text s = (Reply.notNumber, s) := by
  unfold cmdAdd
  rw [hsp]
  rcases hor with h | h
  · simp [h]
  · rcases hq : parse qs with _ | v <;> simp [h, hq]

/-! ## Claim theorems -/

/-- C1: For every sequence of holdings with a current price per holding, the
portfolio computation yields per-holding `cost = quantity * buy_price`,
`value = quantity * current_price`, `profit = value - cost`, and aggregates
`total_cost = Σ cost`, `total_value = Σ value`,
`total_profit = total_value - total_cost`; for the single holding
("AAPL", 10, 150) with fetched price 160 it yields cost = 1500,
value = 1600, profit = 100 and profit_pct ≈ 6.67 (exactly 20/3, within
1/100 of 6.67). -/
theorem portfolio_arithmetic :
    (∀ qty bp cp : ℚ,
      (calcHolding qty bp cp).cost = qty * bp ∧
      (calcHolding qty bp cp).value = qty * cp ∧
      (calcHolding qty bp cp).profit =
        (calcHolding qty bp cp).value - (calcHolding qty bp cp).cost) ∧
    (∀ (rows : List Holding) (quote : String → Option ℚ),
      (portfolioCalc rows quote).entries = rows.map (entryOf quote) ∧
      (portfolioCalc rows quote).total_cost =
        (((portfolioCalc rows quote).entries).map (fun e => e.2.cost)).sum ∧
      (portfolioCalc rows quote).total_value =
        (((portfolioCalc rows quote).entries).map (fun e => e.2.value)).sum ∧
      (portfolioCalc rows quote).total_profit =
        (portfolioCalc rows quote).total_value - (portfolioCalc rows quote).total_cost) ∧
    (portfolioCalc [⟨1, "AAPL", 10, 150⟩]
        (fun t => if t == "AAPL" then some 160 else none)).entries =
      [("AAPL", ⟨1500, 1600, 100, 20/3⟩)] ∧
    |(calcHolding 10 150 160).profit_pct - 667/100| < 1/100 := by
  refine ⟨fun qty bp cp => ⟨rfl, rfl, rfl⟩,
    fun rows quote => ⟨portfolioCalc_entries rows quote,
      portfolioCalc_total_cost rows quote, portfolioCalc_total_value rows quote, rfl⟩,
    ?_, ?_⟩
  · norm_num [portfolioCalc, portfolioAcc, portfolioStep, calcHolding, fetchPrice]
  · have hpct : (calcHolding 10 150 160).profit_pct = 20/3 := by
      norm_num [calcHolding]
    rw [hpct, abs_lt]
    constructor <;> norm_num

/-- C2: the percentage computations are zero-guarded: a holding with
`cost = 0` gets `profit_pct = 0`, and a portfolio with `total_cost = 0`
gets `total_profit_pct = 0`; the division is behind the guard and its
result is never used with a zero divisor. -/
theorem profit_pct_zero_guard :
    (∀ qty bp cp : ℚ, (calcHolding qty bp cp).cost = 0 →
      (calcHolding qty bp cp).profit_pct = 0) ∧
    (∀ (rows : List Holding) (quote : String → Option ℚ),
      (portfolioCalc rows quote).total_cost = 0 →
      (portfolioCalc rows quote).total_profit_pct = 0) := by
  constructor
  · intro qty bp cp h
    replace h : qty * bp = 0 := h
    simp [calcHolding, h]
  · intro rows quote h
    replace h : (portfolioAcc quote rows).1 = 0 := h
    simp [portfolioCalc, h]

/-- Witness for C2 at the holding (qty 0, buy 5, price 7) and the empty
portfolio. -/
theorem profit_pct_zero_guard_witness :
    (calcHolding 0 5 7).profit_pct = 0 ∧
    (portfolioCalc [] (fun _ => none)).total_profit_pct = 0 :=
  ⟨profit_pct_zero_guard.1 0 5 7 (by norm_num [calcHolding]),
   profit_pct_zero_guard.2 [] (fun _ => none) rfl⟩

/-- C3: after `upsert(u,t,q1,p1)` then `upsert(u,t,q2,p2)` on a store with
at most one row per that key, the store holds exactly one row for (u,t)
and it carries q2 and p2 (last write wins); with identical arguments the
second upsert changes nothing at all (idempotence). -/
theorem upsert_last_write_wins (s : Store) (u : Int) (t : String) (q1 p1 q2 p2 : ℚ)
    (hs : s.countP (keyMatches u t) ≤ 1) :
    (upsert (upsert s u t q1 p1) u t q2 p2).filter (keyMatches u t) =
      [⟨u, t, q2, p2⟩] ∧
    upsert (upsert s u t q1 p1) u t q1 p1 = upsert s u t q1 p1 := by
  constructor
  · apply filter_upsert
    rw [List.countP_eq_length_filter, filter_upsert s u t q1 p1 hs]
    simp
  · exact upsert_idem s u t q1 p1

/-- Witness for C3: two upserts for (1, "AAPL") on the empty store. -/
theorem upsert_last_write_wins_witness :
    (upsert (upsert [] 1 "AAPL" 10 150) 1 "AAPL" 5 100).filter (keyMatches 1 "AAPL") =
      [⟨1, "AAPL", 5, 100⟩] ∧
    upsert (upsert [] 1 "AAPL" 10 150) 1 "AAPL" 10 150 = upsert [] 1 "AAPL" 10 150 :=
  upsert_last_write_wins [] 1 "AAPL" 10 150 5 100 (by decide)

/-- C8: the store write of `cmd_add` keys the row by the uppercased
ticker: the store afterwards has exactly that row under
(u, uppercase ticker), and listing the user's rows returns it under the
uppercase ticker. -/
theorem addHolding_uppercase (s : Store) (u : Int) (t : String) (q p : ℚ)
    (hs : s.countP (keyMatches u (pyUpper t)) ≤ 1) :
    (addHolding s u t q p).filter (keyMatches u (pyUpper t)) =
      [⟨u, pyUpper t, q, p⟩] ∧
    Holding.mk u (pyUpper t) q p ∈ listUser (addHolding s u t q p) u := by
  have h1 : (addHolding s u t q p).filter (keyMatches u (pyUpper t)) =
      [⟨u, pyUpper t, q, p⟩] := filter_upsert s u (pyUpper t) q p hs
  refine ⟨h1, ?_⟩
  have hmem : Holding.mk u (pyUpper t) q p ∈ addHolding s u t q p := by
    have hf : Holding.mk u (pyUpper t) q p ∈
        (addHolding s u t q p).filter (keyMatches u (pyUpper t)) := by
      rw [h1]
      simp
    exact (List.mem_filter.mp hf).1
  exact List.mem_filter.mpr ⟨hmem, by simp⟩

/-- Witness for C8: `upsert(1, "aapl", 1, 1)` on the empty store is
retrievable under the key "AAPL". -/
theorem addHolding_uppercase_witness :
    pyUpper "aapl" = "AAPL" ∧
    Holding.mk 1 (pyUpper "aapl") 1 1 ∈ listUser (addHolding [] 1 "aapl" 1 1) 1 :=
  ⟨by decide, (addHolding_uppercase [] 1 "aapl" 1 1 (by decide)).2⟩

/-- C5: when the quote fetch fails or returns no data for a holding's
ticker, the computation uses current_price = 0 for it, the holding still
gets its (well-formed) report line, and — the computation being a total
function — no exception escapes the handler. -/
theorem fetch_failure_zero_fallback (rows : List Holding)
    (quote : String → Option ℚ) (r : Holding) (hr : r ∈ rows)
    (hq : quote r.ticker = none) :
    fetchPrice quote r.ticker = 0 ∧
    (r.ticker, calcHolding r.quantity r.buy_price 0) ∈
      (portfolioCalc rows quote).entries ∧
    (portfolioCalc rows quote).entries.length = rows.length := by
  have hf : fetchPrice quote r.ticker = 0 := by simp [fetchPrice, hq]
  refine ⟨hf, ?_, ?_⟩
  · rw [portfolioCalc_entries]
    refine List.mem_map.mpr ⟨r, hr, ?_⟩
    simp [entryOf, hf]
  · rw [portfolioCalc_entries, List.length_map]

/-- Witness for C5: holding ("XYZ", 2, 3) with a fetch that always fails. -/
theorem fetch_failure_zero_fallback_witness :
    fetchPrice (fun _ => none) "XYZ" = 0 ∧
    ("XYZ", calcHolding 2 3 0) ∈
      (portfolioCalc [⟨1, "XYZ", 2, 3⟩] (fun _ => none)).entries ∧
    (portfolioCalc [⟨1, "XYZ", 2, 3⟩] (fun _ => none)).entries.length = 1 :=
  fetch_failure_zero_fallback [⟨1, "XYZ", 2, 3⟩] (fun _ => none)
    ⟨1, "XYZ", 2, 3⟩ (by simp) rfl

/-- C6: an /add message whose text does not split into exactly 4 tokens
gets the usage reply and leaves the store unchanged; one whose quantity or
price token fails to parse gets the not-a-number reply and leaves the
store unchanged. -/
theorem cmdAdd_validation (parse : String → Option ℚ) (u : Int) (text : String)
    (s : Store) :
    ((pySplit text).length ≠ 4 → cmdAdd parse u text s = (Reply.usage, s)) ∧
    (∀ w t qs ps : String, pySplit text = [w, t, qs, ps] →
      parse qs = none ∨ parse ps = none →
      cmdAdd parse u text s = (Reply.notNumber, s)) :=
  ⟨fun hlen => cmdAdd_wrong_arity parse u text s hlen,
   fun w t qs ps hsp hor => cmdAdd_parse_fail parse u text s w t qs ps hsp hor⟩

/-- Witness for C6: "/add AAPL 10" (two arguments) and "/add AAPL x 10"
(non-numeric quantity), both on the empty store. -/
theorem cmdAdd_validation_witness :
    cmdAdd (fun w => if w == "10" then some 10 else none) 7 "/add AAPL 10" [] =
      (Reply.usage, []) ∧
    cmdAdd (fun w => if w == "10" then some 10 else none) 7 "/add AAPL x 10" [] =
      (Reply.notNumber, []) :=
  ⟨(cmdAdd_validation (fun w => if w == "10" then some 10 else none) 7
      "/add AAPL 10" []).1 (by decide),
   (cmdAdd_validation (fun w => if w == "10" then some 10 else none) 7
      "/add AAPL x 10" []).2 "/add" "AAPL" "x" "10" (by decide) (Or.inl rfl)⟩

/-- C7: for a user whose row list is empty, /portfolio answers the
empty-portfolio message, issues zero quote fetches, and computes no report
lines. -/
theorem cmdPortfolio_empty (quote : String → Option ℚ) (u : Int) (s : Store)
    (h : listUser s u = []) :
    cmdPortfolio quote u s = (Reply.emptyPortfolio, []) := by
  simp [cmdPortfolio, h]

/-- Witness for C7: user 1 on the empty store. -/
theorem cmdPortfolio_empty_witness :
    cmdPortfolio (fun _ => none) 1 [] = (Reply.emptyPortfolio, []) :=
  cmdPortfolio_empty (fun _ => none) 1 [] rfl

/-- C4: the "➕ Добавить" button label is handled exactly like the bare
"/add" command (same store effect, same reply — `handle_buttons` forwards
the button-label message to `cmd_add`, which fails the arity check the same
way "/add" without arguments does), and "📊 Портфель" is handled exactly
like "/portfolio". -/
theorem button_aliases_equiv (parse : String → Option ℚ)
    (quote : String → Option ℚ) (ratesFetch : Except String (List (String × ℚ)))
    (u : Int) (s : Store) :
    dispatch parse quote ratesFetch ⟨some "➕ Добавить", u⟩ s =
      dispatch parse quote ratesFetch ⟨some "/add", u⟩ s ∧
    dispatch parse quote ratesFetch ⟨some "📊 Портфель", u⟩ s =
      dispatch parse quote ratesFetch ⟨some "/portfolio", u⟩ s := by
  constructor
  · have hA : cmdAdd parse u "➕ Добавить" s = (Reply.usage, s) :=
      cmdAdd_wrong_arity parse u _ s (by decide)
    have hB : cmdAdd parse u "/add" s = (Reply.usage, s) :=
      cmdAdd_wrong_arity parse u _ s (by decide)
    simp [dispatch, hA, hB,
      show isCommand "add" "➕ Добавить" = false from by decide,
      show isCommand "portfolio" "➕ Добавить" = false from by decide,
      show isCommand "help" "➕ Добавить" = false from by decide,
      show isCommand "start" "➕ Добавить" = false from by decide,
      show ("➕ Добавить" == "➕ Добавить") = true from by decide,
      show isCommand "add" "/add" = true from by decide]
  · simp [dispatch,
      show isCommand "add" "📊 Портфель" = false from by decide,
      show isCommand "portfolio" "📊 Портфель" = false from by decide,
      show isCommand "help" "📊 Портфель" = false from by decide,
      show isCommand "start" "📊 Портфель" = false from by decide,
      show ("📊 Портфель" == "➕ Добавить") = false from by decide,
      show ("📊 Портфель" == "📊 Портфель") = true from by decide,
      show isCommand "add" "/portfolio" = false from by decide,
      show isCommand "portfolio" "/portfolio" = true from by decide]

/-- C9 counterexample: a message whose text is the empty string "" carries
text, matches no handler filter, and yet receives no reply at all — the
fallback's Python truthiness guard `if message.text` conflates the empty
text with absent text, so this unmatched text message is left unanswered. -/
theorem empty_text_unanswered :
    handleUnknown (some "") = [] ∧
    dispatch (fun _ => none) (fun _ => none) (Except.error "")
      ⟨some "", 7⟩ [] = ([], []) := by
  constructor
  · decide
  · decide

/-- C9 amended: a message with no text gets no reply; an unmatched message
with NON-EMPTY text gets exactly one of the two canned replies, chosen by
whether the text starts with '/'; the message with empty text also gets no
reply. -/
theorem handle_unknown_fallback :
    handleUnknown none = [] ∧
    handleUnknown (some "") = [] ∧
    (∀ t : String, t ≠ "" → pyStartsWith t '/' = false →
      handleUnknown (some t) = [Reply.unknownText]) ∧
    (∀ t : String, t ≠ "" → pyStartsWith t '/' = true →
      handleUnknown (some t) = [Reply.unknownCommand]) := by
  refine ⟨rfl, by decide, ?_, ?_⟩
  · intro t ht hsw
    have hd : t.data.isEmpty = false := by
      rcases h : t.data.isEmpty with _ | _
      · rfl
      · exact absurd (String.ext (by simpa using h)) ht
    simp [handleUnknown, hd, hsw]
  · intro t ht hsw
    have hd : t.data.isEmpty = false := by
      rcases h : t.data.isEmpty with _ | _
      · rfl
      · exact absurd (String.ext (by simpa using h)) ht
    simp [handleUnknown, hd, hsw]

/-- Witness for the amended C9: "привет" gets the text-only canned reply,
"/xyz" gets the unknown-command canned reply. -/
theorem handle_unknown_fallback_witness :
    handleUnknown (some "привет") = [Reply.unknownText] ∧
    handleUnknown (some "/xyz") = [Reply.unknownCommand] :=
  ⟨handle_unknown_fallback.2.2.1 "привет" (by decide) (by decide),
   handle_unknown_fallback.2.2.2 "/xyz" (by decide) (by decide)⟩

/-- C10: the "💰 Курсы валют" handler never touches the holdings store;
it answers the waiting message followed by the rates text when the rates
fetch succeeds, and the waiting message followed by the error message when
the fetch fails — every fetch outcome is handled, so no exception escapes
the handler. -/
theorem cmdRates_spec (parse : String → Option ℚ) (quote : String → Option ℚ)
    (ratesFetch : Except String (List (String × ℚ))) (u : Int) (s : Store) :
    (dispatch parse quote ratesFetch ⟨some "💰 Курсы валют", u⟩ s).2 = s ∧
    (∀ rates, ratesFetch = Except.ok rates →
      dispatch parse quote ratesFetch ⟨some "💰 Курсы валют", u⟩ s =
        ([Reply.ratesWait,
          Reply.ratesText (rateGet rates "USD") (rateGet rates "EUR")
            (rateGet rates "GBP") (rateGet rates "CNY")
            (rateGet rates "KZT") (rateGet rates "JPY")], s)) ∧
    (∀ e, ratesFetch = Except.error e →
      dispatch parse quote ratesFetch ⟨some "💰 Курсы валют", u⟩ s =
        ([Reply.ratesWait, Reply.ratesError e], s)) := by
  have hdis : dispatch parse quote ratesFetch ⟨some "💰 Курсы валют", u⟩ s =
      (cmdRates ratesFetch, s) := by
    simp [dispatch,
      show isCommand "add" "💰 Курсы валют" = false from by decide,
      show isCommand "portfolio" "💰 Курсы валют" = false from by decide,
      show isCommand "help" "💰 Курсы валют" = false from by decide,
      show isCommand "start" "💰 Курсы валют" = false from by decide,
      show ("💰 Курсы валют" == "➕ Добавить") = false from by decide,
      show ("💰 Курсы валют" == "📊 Портфель") = false from by decide,
      show ("💰 Курсы валют" == "❓ Помощь") = false from by decide,
      show ("💰 Курсы валют" == "💰 Курсы валют") = true from by decide]
  refine ⟨by rw [hdis], ?_, ?_⟩
  · rintro rates rfl
    rw [hdis]
    rfl
  · rintro e rfl
    rw [hdis]
    rfl

/-- Witness for C10: a successful fetch yielding only a USD rate, and a
failing fetch with message "boom". -/
theorem cmdRates_spec_witness :
    dispatch (fun _ => none) (fun _ => none) (Except.ok [("USD", 90)])
        ⟨some "💰 Курсы валют", 7⟩ [] =
      ([Reply.ratesWait,
        Reply.ratesText (rateGet [("USD", 90)] "USD") (rateGet [("USD", 90)] "EUR")
          (rateGet [("USD", 90)] "GBP") (rateGet [("USD", 90)] "CNY")
          (rateGet [("USD", 90)] "KZT") (rateGet [("USD", 90)] "JPY")], []) ∧
    dispatch (fun _ => none) (fun _ => none) (Except.error "boom")
        ⟨some "💰 Курсы валют", 7⟩ [] =
      ([Reply.ratesWait, Reply.ratesError "boom"], []) :=
  ⟨(cmdRates_spec (fun _ => none) (fun _ => none) (Except.ok [("USD", 90)]) 7 []).2.1
      [("USD", 90)] rfl,
   (cmdRates_spec (fun _ => none) (fun _ => none) (Except.error "boom") 7 []).2.2
      "boom" rfl⟩

end InvestBot
